import Mathlib

/-!
Verification development for the outline-building core of the slide pipeline
(`scripts/build_outline.py`).  Text is modelled as `List Char`; Python's
`str.lower` is modelled by `Char.toLower` (ASCII case mapping, which covers
every cased character occurring in the fixed keyword tables), Python's
`str.split()` whitespace by the ASCII whitespace characters, and dictionaries
with optional keys by `Option` fields.  `build_outline` raising `ValueError`
is modelled by `Except`.
-/

abbrev Text := List Char

/-- Substring test, Python's `in` operator on strings. -/
def containsSub (pat s : Text) : Bool := decide (pat <:+: s)

/-- Model of Python `str.lower` (character-wise ASCII case mapping). -/
def lowerT (s : Text) : Text := s.map Char.toLower

/-- ASCII whitespace, modelling the default split set of Python `str.split()`. -/
def isWsChar (c : Char) : Bool :=
  c = ' ' ∨ c = '\t' ∨ c = '\n' ∨ c = '\x0d' ∨ c = '\x0b' ∨ c = '\x0c'

/-- Accumulating word splitter: `cur` holds the reversed current word. -/
def wordsAux (cur : List Char) : List Char → List (List Char)
  | [] => if cur = [] then [] else [cur.reverse]
  | c :: rest =>
    if isWsChar c then
      if cur = [] then wordsAux [] rest else cur.reverse :: wordsAux [] rest
    else
      wordsAux (c :: cur) rest

/-- Python `text.split()` (whitespace tokenisation, empty tokens dropped). -/
def splitWords (s : Text) : List Text := wordsAux [] s

/-- Python `" ".join(words)`. -/
def joinSpace : List Text → Text
  | [] => []
  | [w] => w
  | w :: ws => w ++ ' ' :: joinSpace ws

/-- Whitespace collapsing: `" ".join(item.split())`. -/
def normWs (s : Text) : Text := joinSpace (splitWords s)

/-- Python `text.rstrip()` (trailing whitespace removed). -/
def rstripT (s : Text) : Text := (s.reverse.dropWhile isWsChar).reverse

/-- `_truncate` from `build_outline.py`. -/
def truncate (text : Text) (max_len : Nat) : Text :=
  if text.length ≤ max_len then text
  else rstripT (text.take (max_len - 1)) ++ ['…']

def REBUTTAL_PATTERNS : List Text :=
  ["response to referees", "response to reviewers", "rebuttal", "reviewer",
   "referee", "审稿", "回复"].map String.data

def NOISE_PATTERNS : List Text :=
  ["email:", "correspondence", "to whom correspondence", "https://", "http://",
   "doi.org", "advance access publication", "the first four authors",
   "department of", "school of", "author@example.com",
   "本人完全了解中山大学有关保留", "学位论文使用授权声明", "原创性声明",
   "答辩委员会", "作者签名"].map String.data

def TOPIC_HINT_KEYWORDS : List Text :=
  ["sncrna", "mirna", "pirna", "tdr", "rrf", "cancer", "pan-cancer", "database",
   "pcsrnadb", "pipeline", "method", "analysis", "result", "survival",
   "differential", "expression", "tumor"].map String.data

def BACKGROUND_KEYWORDS : List Text :=
  ["背景", "意义", "目的", "痛点", "现状", "introduction", "background",
   "challenge"].map String.data

def METHOD_KEYWORDS : List Text :=
  ["方法", "流程", "数据", "数据库", "构建", "pipeline", "method", "dataset",
   "processing", "analysis workflow"].map String.data

def RESULT_KEYWORDS : List Text :=
  ["结果", "发现", "提升", "显著", "验证", "result", "finding", "survival",
   "differential", "performance", "association"].map String.data

def OUTLOOK_KEYWORDS : List Text :=
  ["展望", "未来", "局限", "下一步", "discussion", "conclusion", "future",
   "limitation"].map String.data

/-- The four fixed narrative sections. -/
inductive SectionT where
  | background
  | methodology
  | results
  | outlook
deriving DecidableEq, Repr

/-- `SECTION_FALLBACKS` from `build_outline.py`. -/
def section_fallbacks : SectionT → List Text
  | .background =>
    ["本研究关注跨癌种小RNA资源分散、口径不一致导致的分析复用困难。",
     "核心目标是建立统一、可追溯、可比较的数据资源体系，降低重复整理成本。",
     "研究问题围绕临床解释需求与算法处理规范之间的协同展开。"].map String.data
  | .methodology =>
    ["方法上采用标准化流程完成数据收集、质量筛选、注释映射和指标计算。",
     "通过统一元数据结构连接样本、癌种、分子类型与分析结果，保证检索一致性。",
     "关键步骤保留版本信息和处理参数，支撑复现与后续迭代。"].map String.data
  | .results =>
    ["结果显示资源库能够稳定支持跨队列比较，并提供可解释的差异表达线索。",
     "在代表性任务中，关键指标表现与既有研究趋势一致，验证了流程可靠性。",
     "平台化组织显著提升了从问题提出到证据定位的效率。"].map String.data
  | .outlook =>
    ["下一步将扩展更多公开队列并持续完善临床注释字段。",
     "计划增强交互可视化与结果导出能力，提升一线研究场景可用性。",
     "后续将围绕转化价值开展更系统的外部验证与协作。"].map String.data

/-- `_dedupe_keep_order`, with the `seen` set threaded explicitly. -/
def dedupeAux (seen : List Text) : List Text → List Text
  | [] => []
  | item :: rest =>
    let key := normWs item
    if key = [] ∨ key ∈ seen then dedupeAux seen rest
    else key :: dedupeAux (key :: seen) rest

def dedupe_keep_order (items : List Text) : List Text := dedupeAux [] items

/-- `_is_rebuttal_source`. -/
def is_rebuttal_source (name : Text) : Bool :=
  REBUTTAL_PATTERNS.any (fun pattern => containsSub pattern (lowerT name))

/-- `_looks_rebuttal_text`. -/
def looks_rebuttal_text (text : Text) : Bool :=
  REBUTTAL_PATTERNS.any (fun pattern => containsSub pattern (lowerT text))

/-- `_contains_cjk`. -/
def contains_cjk (text : Text) : Bool :=
  text.any (fun ch => decide ('一' ≤ ch ∧ ch ≤ '鿿'))

/-- `_looks_noise_text`. -/
def looks_noise_text (text : Text) : Bool :=
  let lowered := lowerT text
  if NOISE_PATTERNS.any (fun pattern => containsSub pattern lowered) then true
  else if 0 < lowered.count '@' then true
  else if 420 < text.length then true
  else false

/-- `_looks_contentful_text`. -/
def looks_contentful_text (text : Text) : Bool :=
  if looks_noise_text text then false
  else if contains_cjk text then true
  else TOPIC_HINT_KEYWORDS.any (fun keyword => containsSub keyword (lowerT text))

/-- A document record of the extraction summary (`file`, `kind`, `key_points`). -/
structure Document where
  file : Text
  kind : Text
  key_points : List Text
deriving DecidableEq, Repr

structure Image where
  path : Text
deriving DecidableEq, Repr

/-- The extraction summary consumed by `build_outline`. -/
structure Summary where
  project_title : Option Text
  documents : List Document
  images : List Image
deriving DecidableEq, Repr

/-- `_doc_priority` inside `_collect_points` (first tuple component; the
second component is the constant 0 and is dropped). -/
def doc_priority (doc : Document) : Nat :=
  if containsSub ("学位论文".data) doc.file ∨ containsSub ("毕业论文".data) doc.file then 0
  else if lowerT doc.kind = "docx".data then 1
  else if lowerT doc.kind = "pdf".data then 2
  else 3

/-- The filtered, normalised points one document contributes to the raw
stream of `_collect_points` (empty for rebuttal-named and pptx documents). -/
def contribOf (doc : Document) : List Text :=
  if is_rebuttal_source doc.file then []
  else if lowerT doc.kind = "pptx".data then []
  else
    doc.key_points.filterMap (fun point =>
      let text := normWs point
      if text.length < 15 then none
      else if containsSub ("既有演示材料输入".data) text then none
      else if looks_rebuttal_text text then none
      else if ¬ looks_contentful_text text then none
      else some text)

/-- Stable insertion of `a` into `l`: `a` goes after every element `b` with
`le b a`, so elements comparing equal keep their original relative order. -/
def insertLe {α : Type} (le : α → α → Bool) (a : α) : List α → List α
  | [] => [a]
  | b :: rest => if le b a then b :: insertLe le a rest else a :: b :: rest

/-- Stable sort (insertion sort), the model of Python's stable `sorted`. -/
def stableSort {α : Type} (le : α → α → Bool) (l : List α) : List α :=
  l.foldl (fun acc x => insertLe le x acc) []

/-- `sorted(documents, key=_doc_priority)` (Python's sort is stable, as is
`stableSort`). -/
def sortedDocs (docs : List Document) : List Document :=
  stableSort (fun a b => decide (doc_priority a ≤ doc_priority b)) docs

/-- The `points` list of `_collect_points` before dedup. -/
def rawStream (summary : Summary) : List Text :=
  (sortedDocs summary.documents).flatMap contribOf

/-- `_collect_points`. -/
def collect_points (summary : Summary) (limit : Nat) : List Text :=
  (dedupe_keep_order (rawStream summary)).take limit

/-- `_agenda_items`. -/
def agenda_items (mode : Text) : List Text :=
  if mode = "presentation".data then
    ["研究背景：问题定义与研究动机",
     "研究方法：技术路线与实现流程",
     "研究结果：核心发现与验证证据",
     "研究展望：价值总结与后续计划"].map String.data
  else
    ["研究背景：说明临床与科研场景中数据分散、口径不统一带来的分析障碍与研究动机",
     "研究方法：交代样本来源、处理流程、统计策略和数据组织方式，确保可复现与可追溯",
     "研究结果：展示关键发现、验证思路与代表性分析结论，形成清晰证据链",
     "研究展望：总结研究价值、已知局限与下一阶段扩展方向，明确落地路径"].map String.data

def kwMatch (keywords : List Text) (lowered : Text) : Bool :=
  keywords.any (fun keyword => containsSub keyword lowered)

/-- `_classify_point`. -/
def classify_point (point : Text) : Option SectionT :=
  let lowered := lowerT point
  if kwMatch BACKGROUND_KEYWORDS lowered then some .background
  else if kwMatch METHOD_KEYWORDS lowered then some .methodology
  else if kwMatch RESULT_KEYWORDS lowered then some .results
  else if kwMatch OUTLOOK_KEYWORDS lowered then some .outlook
  else none

/-- The four classification buckets of `_section_payloads`. -/
structure Buckets where
  background : List Text
  methodology : List Text
  results : List Text
  outlook : List Text
deriving DecidableEq, Repr

def bucketGet (b : Buckets) : SectionT → List Text
  | .background => b.background
  | .methodology => b.methodology
  | .results => b.results
  | .outlook => b.outlook

/-- One iteration of the classification loop of `_section_payloads`. -/
def bucketsStep (b : Buckets) (point : Text) : Buckets :=
  match classify_point point with
  | some .background => { b with background := b.background ++ [point] }
  | some .methodology => { b with methodology := b.methodology ++ [point] }
  | some .results => { b with results := b.results ++ [point] }
  | some .outlook => { b with outlook := b.outlook ++ [point] }
  | none =>
    if b.results.length ≤ b.methodology.length then
      { b with results := b.results ++ [point] }
    else
      { b with methodology := b.methodology ++ [point] }

/-- The classification loop of `_section_payloads`. -/
def fill_buckets (points : List Text) : Buckets :=
  points.foldl bucketsStep ⟨[], [], [], []⟩

/-- `_point_quality`. -/
def point_quality (point : Text) : Int :=
  let lowered := lowerT point
  (if contains_cjk point then (3 : Int) else 0)
  + (if 30 ≤ point.length ∧ point.length ≤ 190 then (1 : Int) else 0)
  + (if TOPIC_HINT_KEYWORDS.any (fun keyword => containsSub keyword lowered) then (1 : Int) else 0)
  - (if containsSub ("copyright".data) lowered ∨ containsSub ("all rights reserved".data) lowered then (2 : Int) else 0)

/-- The fallback `while` loop of `_section_payloads`: append fallback entries
in order until `size` is reached or the fallback list is exhausted. -/
def fillFrom (chosen : List Text) (fallback : List Text) (size : Nat) : List Text :=
  match fallback with
  | [] => chosen
  | f :: rest => if chosen.length < size then fillFrom (chosen ++ [f]) rest size else chosen

/-- `_section_payloads` (as a function from section to its payload list). -/
def section_payloads (points : List Text) (mode : Text) : SectionT → List Text :=
  fun sec =>
    let size := if mode = "presentation".data then 3 else 4
    let b := fill_buckets points
    let ranked :=
      stableSort (fun a c => decide (point_quality c ≤ point_quality a)) (bucketGet b sec)
    fillFrom (ranked.take size) (section_fallbacks sec) size

/-- A raw JSON-ish numeric field: either an int-convertible value or one on
which Python `int(...)` raises. -/
inductive JNum where
  | num (n : Int)
  | invalid
deriving DecidableEq, Repr

/-- A caller-supplied strategy overlay; `none` models an absent (or `None`)
key, matching the `if v is not None` merge in `_normalize_strategy`. -/
structure RawStrategy where
  speaker_role : Option Text
  audience_profile : Option Text
  core_goal : Option Text
  style_by_section : Option (List (Text × Text))
  target_slide_count : Option JNum
  max_minutes_per_slide : Option JNum
  content_depth : Option Text
  require_chapter_dividers : Option Bool
  citation_policy : Option Text
deriving DecidableEq, Repr

def emptyRawStrategy : RawStrategy :=
  ⟨none, none, none, none, none, none, none, none, none⟩

/-- The normalised strategy record. -/
structure Strategy where
  speaker_role : Text
  audience_profile : Text
  core_goal : Text
  style_by_section : List (Text × Text)
  target_slide_count : Int
  max_minutes_per_slide : Int
  content_depth : Text
  require_chapter_dividers : Bool
  citation_policy : Text
deriving DecidableEq, Repr

def lookupT : List (Text × Text) → Text → Option Text
  | [], _ => none
  | kv :: rest, k => if kv.1 = k then some kv.2 else lookupT rest k

/-- Python `dict.update`: existing keys overridden in place, new keys appended. -/
def assocUpdate (base extra : List (Text × Text)) : List (Text × Text) :=
  base.map (fun kv =>
    match lookupT extra kv.1 with
    | some w => (kv.1, w)
    | none => kv)
  ++ extra.filter (fun kv => (lookupT base kv.1).isNone)

def assocGetD (l : List (Text × Text)) (k d : Text) : Text :=
  (lookupT l k).getD d

def DEFAULT_STYLES : List (Text × Text) :=
  [("clinical".data, "专业严谨".data), ("ai_principle".data, "生动科普".data)]

/-- `_normalize_strategy`. -/
def normalize_strategy (raw : Option RawStrategy) : Strategy :=
  let r := raw.getD emptyRawStrategy
  { speaker_role := r.speaker_role.getD ("医学AI专家".data)
    audience_profile := r.audience_profile.getD ("一线医生".data)
    core_goal := r.core_goal.getD ("知识传递与建立信任".data)
    style_by_section := assocUpdate DEFAULT_STYLES (r.style_by_section.getD [])
    target_slide_count :=
      match r.target_slide_count with
      | none => 18
      | some (.num n) => max 8 n
      | some .invalid => 18
    max_minutes_per_slide :=
      match r.max_minutes_per_slide with
      | none => 1
      | some (.num n) => max 1 n
      | some .invalid => 1
    content_depth := r.content_depth.getD ("专业翔实".data)
    require_chapter_dividers := r.require_chapter_dividers.getD true
    citation_policy := r.citation_policy.getD ("public_sources_only".data) }

structure Theme where
  font_name : Text
  title_color : Text
  body_color : Text
  accent_color : Text
  background_color : Text
deriving DecidableEq, Repr

def DEFAULT_THEME : Theme :=
  { font_name := "Noto Sans SC".data
    title_color := "1E3A8A".data
    body_color := "0F172A".data
    accent_color := "0EA5E9".data
    background_color := "F8FAFC".data }

structure VisualSpec where
  kind : Text
  layout : Text
  image_policy : Text
  image_path : Text
  source : Text
deriving DecidableEq, Repr

/-- A slide record; `none` in an `Option` field models an absent dict key. -/
structure Slide where
  slide_number : Nat
  page_type : Text
  title : Text
  section_style : Text
  type : Text
  subtitle : Option Text
  on_slide_content : Option (List Text)
  visual_spec : Option VisualSpec
  bullets : Option (List Text)
  speaker_script : Option Text
  speaker_notes : Option Text
  design_rationale : Option Text
deriving DecidableEq, Repr

/-- The fixed generic speaker script of `_make_slide`. -/
def genericScript : Text := "按本页三点顺序讲解，先结论后证据，最后落到行动建议。".data

/-- The fixed design-rationale sentence of `_make_slide`. -/
def designRationaleText : Text :=
  "本页采用结构化文本与简单信息图组合，目标是在无口头讲解前提下让读者独立理解关键结论、证据来源与逻辑关系。".data

/-- Python `"；".join(items)`. -/
def joinTexts (sep : Text) : List Text → Text
  | [] => []
  | [t] => t
  | t :: rest => t ++ sep ++ joinTexts sep rest

/-- Python `value or default` for optional strings (`None` and `""` fall back). -/
def orDefaultT (o : Option Text) (d : Text) : Text :=
  match o with
  | some t => if t = [] then d else t
  | none => d

/-- `_make_slide`.  Arguments follow the Python keyword parameters in order:
mode, page_type, title, content, visual_kind, section_style, image_path,
source_hint. -/
def make_slide (mode page_type title : Text) (content : List Text)
    (visual_kind : Option Text) (section_style : Text)
    (image_path : Option Text) (source_hint : Text) : Slide :=
  let dense := mode = "self_explanatory".data
  let on_slide_content := content.map (fun c => truncate c (if dense then 190 else 78))
  let base : Slide :=
    { slide_number := 0, page_type := page_type, title := title
      section_style := section_style, type := [], subtitle := none
      on_slide_content := none, visual_spec := none, bullets := none
      speaker_script := none, speaker_notes := none, design_rationale := none }
  if page_type = "cover".data then
    { base with
      type := "title".data
      subtitle := match on_slide_content with
        | c :: _ => some c
        | [] => none }
  else if page_type = "section_divider".data then
    { base with type := "section".data }
  else
    let vs : VisualSpec :=
      { kind := orDefaultT visual_kind ("icon_list".data)
        layout := "left_text_right_visual".data
        image_policy := "material_only".data
        image_path := (image_path.getD [])
        source := source_hint }
    let base2 :=
      { base with
        type := "content".data
        on_slide_content := some on_slide_content
        visual_spec := some vs
        bullets := some on_slide_content }
    if mode = "presentation".data then
      let script0 := joinTexts ("；".data) (content.take 4)
      let script := if script0 = [] then genericScript else script0
      { base2 with speaker_script := some script, speaker_notes := some script }
    else
      { base2 with design_rationale := some designRationaleText, speaker_notes := some [] }

/-- The fixed content of the conclusion slide in `build_outline`. -/
def conclusion_content : List Text :=
  ["本研究完成了跨癌种小RNA资源整合的框架构建，并形成可复用数据底座。",
   "方法与结果围绕可追溯、可比较、可解释三个维度建立证据链。",
   "答辩建议聚焦研究价值、方法可信性与未来扩展三条主线。"].map String.data

/-- The fixed content of the Q&A slide in `build_outline`. -/
def qa_content : List Text :=
  ["欢迎围绕研究设计、统计策略与临床价值提出问题。",
   "如需复现流程，可按论文与文章中的公开来源和版本说明执行。"].map String.data

structure Outline where
  title : Text
  subtitle : Text
  mode : Text
  theme : Theme
  strategy : Strategy
  slides : List Slide
deriving DecidableEq, Repr

/-- `for idx, slide in enumerate(slides, start=1): slide["slide_number"] = idx`. -/
def numberFrom (n : Nat) : List Slide → List Slide
  | [] => []
  | s :: rest => { s with slide_number := n } :: numberFrom (n + 1) rest

/-- The body of `build_outline` after the mode check succeeded. -/
def outline_core (summary : Summary) (mode : Text) (strategy : Option RawStrategy) : Outline :=
  let strategy_obj := normalize_strategy strategy
  let title := orDefaultT summary.project_title ("毕业论文与论文工作汇报".data)
  let subtitle :=
    "面向".data ++ strategy_obj.audience_profile ++ " | 角色: ".data
      ++ strategy_obj.speaker_role ++ " | 目标: ".data ++ strategy_obj.core_goal
  let points := collect_points summary 180
  let sections := section_payloads points mode
  let images := (summary.images.map Image.path).filter (fun p => ¬ p = [])
  let image_for := fun (index : Nat) =>
    if images = [] then none else some (images.getD (index % images.length) [])
  let rcd := strategy_obj.require_chapter_dividers
  let slides : List Slide :=
    [make_slide mode ("cover".data) title [subtitle] none ("专业严谨".data) none []]
    ++ [make_slide mode ("agenda".data) ("汇报结构".data) (agenda_items mode)
          (some ("three_column_compare".data)) ("平衡".data) none ("结构规划".data)]
    ++ (if rcd then
          [make_slide mode ("section_divider".data) ("一、研究背景".data) [] none
            (assocGetD strategy_obj.style_by_section ("clinical".data) ("专业严谨".data)) none []]
        else [])
    ++ [make_slide mode ("background".data) ("研究背景与问题定义".data) (sections .background)
          (some ("icon_list".data))
          (assocGetD strategy_obj.style_by_section ("clinical".data) ("专业严谨".data))
          (image_for 0) ("论文背景章节".data)]
    ++ (if rcd then
          [make_slide mode ("section_divider".data) ("二、研究方法".data) [] none
            (assocGetD strategy_obj.style_by_section ("ai_principle".data) ("生动科普".data)) none []]
        else [])
    ++ [make_slide mode ("methodology".data) ("研究方法与技术路线".data) (sections .methodology)
          (some ("two_step_flow".data))
          (assocGetD strategy_obj.style_by_section ("ai_principle".data) ("生动科普".data))
          (image_for 1) ("论文方法章节".data)]
    ++ (if rcd then
          [make_slide mode ("section_divider".data) ("三、研究结果".data) [] none
            ("专业严谨".data) none []]
        else [])
    ++ [make_slide mode ("results".data) ("研究结果与核心发现".data) (sections .results)
          (some ("bar_compare".data)) ("专业严谨".data) (image_for 2) ("论文结果章节".data)]
    ++ (if rcd then
          [make_slide mode ("section_divider".data) ("四、研究展望".data) [] none
            ("平衡".data) none []]
        else [])
    ++ [make_slide mode ("outlook".data) ("研究展望与后续工作".data) (sections .outlook)
          (some ("timeline".data)) ("平衡".data) none ("总结与展望".data)]
    ++ [make_slide mode ("conclusion".data) ("结论与答辩要点".data) conclusion_content
          (some ("three_column_compare".data)) ("专业严谨".data) none ("答辩收束页".data)]
    ++ [make_slide mode ("qa".data) ("Q&A / Thank You".data) qa_content
          (some ("icon_list".data)) ("平衡".data) none ("结束页".data)]
  { title := title
    subtitle := subtitle
    mode := mode
    theme := DEFAULT_THEME
    strategy := strategy_obj
    slides := numberFrom 1 slides }

/-- `build_outline`; the `ValueError` on an unrecognised mode is modelled as
`Except.error`. -/
def build_outline (summary : Summary) (mode : Text) (strategy : Option RawStrategy) :
    Except Text Outline :=
  if ¬ mode = "presentation".data ∧ ¬ mode = "self_explanatory".data then
    Except.error ("mode must be presentation or self_explanatory".data)
  else
    Except.ok (outline_core summary mode strategy)

/-! ## Supporting lemmas -/

theorem fill_buckets_append_single (l : List Text) (p : Text) :
    fill_buckets (l ++ [p]) = bucketsStep (fill_buckets l) p := by
  simp [fill_buckets, List.foldl_append]

/-! ## C1 -/

/-- C1: the claim fails in self-explanatory mode: with zero extractable
points the background section holds only the 3 fallback entries, short of
the target size 4. -/
theorem c1_counterexample :
    ((section_payloads (collect_points ⟨none, [], []⟩ 180) ("self_explanatory".data))
        SectionT.background).length ≠ 4 := by
  decide

/-- C1 (amended): for a summary with zero extractable points, every section
payload consists exactly of that section's 3 fallback entries; this reaches
the target size N = 3 in presentation mode, but stays one short of the
target N = 4 in self-explanatory mode. -/
theorem c1_fallback_fill (summary : Summary) (mode : Text) (sec : SectionT)
    (h : collect_points summary 180 = []) :
    section_payloads (collect_points summary 180) mode sec = section_fallbacks sec
    ∧ (section_fallbacks sec).length = 3 := by
  rw [h]
  constructor
  · by_cases hm : mode = "presentation".data
    · rw [hm]
      cases sec <;> decide
    · simp only [section_payloads, if_neg hm]
      cases sec <;> decide
  · cases sec <;> decide

/-- Witness for `c1_fallback_fill` at the empty summary in presentation mode. -/
theorem c1_fallback_fill_witness :
    collect_points ⟨none, [], []⟩ 180 = []
    ∧ (section_payloads (collect_points ⟨none, [], []⟩ 180) ("presentation".data)
          SectionT.background = section_fallbacks SectionT.background
       ∧ (section_fallbacks SectionT.background).length = 3) :=
  ⟨by decide, c1_fallback_fill ⟨none, [], []⟩ ("presentation".data) SectionT.background (by decide)⟩

/-! ## C2 -/

/-- C2: the claim fails: an unmatched point lands in `results` when alone
but in `methodology` when preceded by a results-classified sibling, so the
assigned section is not a function of the point's text alone. -/
theorem c2_counterexample :
    classify_point ("完全中立的一句话哦整体陈述而已".data) = none
    ∧ bucketGet (fill_buckets [("完全中立的一句话哦整体陈述而已".data)]) SectionT.results
        = [("完全中立的一句话哦整体陈述而已".data)]
    ∧ bucketGet (fill_buckets [("实验结果令人满意".data),
          ("完全中立的一句话哦整体陈述而已".data)]) SectionT.methodology
        = [("完全中立的一句话哦整体陈述而已".data)]
    ∧ bucketGet (fill_buckets [("完全中立的一句话哦整体陈述而已".data)]) SectionT.methodology
        = [] := by
  decide

/-- C2 (amended): `classify_point` is a pure function of the point text, and
any point it matches to a section is filed in that section regardless of the
siblings processed before it; only keyword-unmatched points are routed by the
stateful load balancer and may depend on siblings. -/
theorem c2_matched_point_placement (l : List Text) (p : Text) (sec : SectionT)
    (h : classify_point p = some sec) :
    p ∈ bucketGet (fill_buckets (l ++ [p])) sec := by
  rw [fill_buckets_append_single, bucketsStep, h]
  cases sec <;> simp [bucketGet]

/-- Witness for `c2_matched_point_placement`. -/
theorem c2_matched_point_placement_witness :
    ("实验结果令人满意".data) ∈ bucketGet
      (fill_buckets ([("完全中立的一句话哦整体陈述而已".data)] ++ [("实验结果令人满意".data)]))
      SectionT.results :=
  c2_matched_point_placement _ _ _ (by decide)

/-! ## C3 -/

/-- Modelled from the spec: search the lowercased text against the four
keyword sets, one per section, in priority order background → methodology →
results → outlook; the first set with a match wins. -/
def specClassify (point : Text) : Option SectionT :=
  [(SectionT.background, BACKGROUND_KEYWORDS), (SectionT.methodology, METHOD_KEYWORDS),
   (SectionT.results, RESULT_KEYWORDS), (SectionT.outlook, OUTLOOK_KEYWORDS)].findSome?
    (fun sk => if kwMatch sk.2 (lowerT point) then some sk.1 else none)

/-- C3: `classify_point` implements exactly the spec's first-match priority
search background → methodology → results → outlook; in particular a point
matching both a background and a methodology keyword is filed under
background. -/
theorem c3_first_match_priority (p : Text) :
    classify_point p = specClassify p
    ∧ (kwMatch BACKGROUND_KEYWORDS (lowerT p) = true →
        kwMatch METHOD_KEYWORDS (lowerT p) = true →
        classify_point p = some SectionT.background) := by
  constructor
  · simp only [classify_point, specClassify, List.findSome?_cons, List.findSome?_nil]
    cases hb : kwMatch BACKGROUND_KEYWORDS (lowerT p) <;>
      cases hm : kwMatch METHOD_KEYWORDS (lowerT p) <;>
        cases hr : kwMatch RESULT_KEYWORDS (lowerT p) <;>
          cases ho : kwMatch OUTLOOK_KEYWORDS (lowerT p) <;>
            simp [hb, hm, hr, ho]
  · intro hb _
    simp [classify_point, hb]

/-- Witness for `c3_first_match_priority`: a point with both a background
and a methodology keyword is classified as background. -/
theorem c3_first_match_priority_witness :
    classify_point ("研究背景与方法".data) = some SectionT.background :=
  (c3_first_match_priority ("研究背景与方法".data)).2 (by decide) (by decide)

/-! ## C4 -/

/-- C4: an unmatched point is appended to `results` when `results` currently
holds no more points than `methodology`, and to `methodology` otherwise, with
the bucket counts taken at the moment the point is processed. -/
theorem c4_load_balancing (l : List Text) (p : Text)
    (h : classify_point p = none) :
    ((fill_buckets l).results.length ≤ (fill_buckets l).methodology.length →
      fill_buckets (l ++ [p])
        = { fill_buckets l with results := (fill_buckets l).results ++ [p] })
    ∧ ((fill_buckets l).methodology.length < (fill_buckets l).results.length →
      fill_buckets (l ++ [p])
        = { fill_buckets l with methodology := (fill_buckets l).methodology ++ [p] }) := by
  rw [fill_buckets_append_single, bucketsStep, h]
  constructor
  · intro hc
    rw [if_pos hc]
  · intro hc
    rw [if_neg (by omega)]

/-- Witness for `c4_load_balancing`: after one results-classified point, an
unmatched point goes to methodology. -/
theorem c4_load_balancing_witness :
    fill_buckets ([("实验结果令人满意".data)] ++ [("完全中立的一句话哦整体陈述而已".data)])
      = { fill_buckets [("实验结果令人满意".data)] with
          methodology := (fill_buckets [("实验结果令人满意".data)]).methodology
            ++ [("完全中立的一句话哦整体陈述而已".data)] } :=
  (c4_load_balancing [("实验结果令人满意".data)] ("完全中立的一句话哦整体陈述而已".data)
    (by decide)).2 (by decide)

/-! ## C7 -/

/-- C7: `build_outline` signals invalid-argument exactly when the mode is
unrecognised; recognised modes always produce an outline, and malformed
numeric strategy fields degrade to the defaults instead of failing. -/
theorem c7_error_iff_invalid_mode (summary : Summary) (mode : Text)
    (strategy : Option RawStrategy) :
    ((mode = "presentation".data ∨ mode = "self_explanatory".data) →
      build_outline summary mode strategy
        = Except.ok (outline_core summary mode strategy))
    ∧ (¬ mode = "presentation".data → ¬ mode = "self_explanatory".data →
      build_outline summary mode strategy
        = Except.error ("mode must be presentation or self_explanatory".data))
    ∧ (∀ raw : RawStrategy, raw.target_slide_count = some JNum.invalid →
        (normalize_strategy (some raw)).target_slide_count = 18)
    ∧ (∀ raw : RawStrategy, raw.max_minutes_per_slide = some JNum.invalid →
        (normalize_strategy (some raw)).max_minutes_per_slide = 1) := by
  refine ⟨?_, ?_, ?_, ?_⟩
  · intro h
    rcases h with h | h <;> simp [build_outline, h]
  · intro h1 h2
    simp [build_outline, h1, h2]
  · intro raw h
    simp [normalize_strategy, h]
  · intro raw h
    simp [normalize_strategy, h]

/-- Witness for `c7_error_iff_invalid_mode`. -/
theorem c7_error_iff_invalid_mode_witness :
    build_outline ⟨none, [], []⟩ ("presentation".data) none
      = Except.ok (outline_core ⟨none, [], []⟩ ("presentation".data) none)
    ∧ build_outline ⟨none, [], []⟩ ("bogus".data) none
      = Except.error ("mode must be presentation or self_explanatory".data)
    ∧ (normalize_strategy
        (some { emptyRawStrategy with target_slide_count := some JNum.invalid })).target_slide_count
      = 18 :=
  ⟨(c7_error_iff_invalid_mode ⟨none, [], []⟩ ("presentation".data) none).1 (Or.inl rfl),
   (c7_error_iff_invalid_mode ⟨none, [], []⟩ ("bogus".data) none).2.1 (by decide) (by decide),
   (c7_error_iff_invalid_mode ⟨none, [], []⟩ ("presentation".data) none).2.2.1 _ rfl⟩

/-! ## C5 -/

theorem dedupeAux_sublist (l : List Text) :
    ∀ seen, (dedupeAux seen l).Sublist (l.map normWs) := by
  induction l with
  | nil => intro seen; simp [dedupeAux]
  | cons item rest ih =>
    intro seen
    simp only [dedupeAux, List.map_cons]
    split
    · exact (ih seen).cons _
    · exact (ih _).cons₂ _

theorem dedupeAux_nodup (l : List Text) :
    ∀ seen, (∀ x ∈ dedupeAux seen l, x ∉ seen) ∧ (dedupeAux seen l).Nodup := by
  induction l with
  | nil => intro seen; simp [dedupeAux]
  | cons item rest ih =>
    intro seen
    simp only [dedupeAux]
    split
    · exact ih seen
    · rename_i hcond
      push_neg at hcond
      constructor
      · intro x hx
        rcases List.mem_cons.mp hx with rfl | hx'
        · exact hcond.2
        · intro hxseen
          exact (ih _).1 x hx' (List.mem_cons_of_mem _ hxseen)
      · refine List.nodup_cons.mpr ⟨?_, (ih _).2⟩
        intro hkey
        exact (ih _).1 _ hkey (List.mem_cons_self _ _)

theorem dedupeAux_complete (l : List Text) :
    ∀ seen (x : Text), x ∈ l → ¬ normWs x = [] →
      normWs x ∈ seen ∨ normWs x ∈ dedupeAux seen l := by
  induction l with
  | nil =>
    intro seen x hx
    cases hx
  | cons item rest ih =>
    intro seen x hx hne
    simp only [dedupeAux]
    split
    · rename_i hcond
      rcases List.mem_cons.mp hx with rfl | hx'
      · rcases hcond with h | h
        · exact absurd h hne
        · exact Or.inl h
      · exact ih seen x hx' hne
    · rcases List.mem_cons.mp hx with rfl | hx'
      · exact Or.inr (List.mem_cons_self _ _)
      · rcases ih (normWs item :: seen) x hx' hne with h | h
        · rcases List.mem_cons.mp h with heq | hseen
          · exact Or.inr (heq ▸ List.mem_cons_self _ _)
          · exact Or.inl hseen
        · exact Or.inr (List.mem_cons_of_mem _ h)

/-- The spec's dedup rule, stated on the normalised key stream: walk the
keys left to right and keep each nonempty key only at its first occurrence,
in the original relative order. -/
def firstOccurrenceScan (keys : List Text) : List Text :=
  keys.foldl (fun acc k => if k = [] ∨ k ∈ acc then acc else acc ++ [k]) []

theorem dedupeAux_eq_scan (l : List Text) :
    ∀ (seen acc : List Text), (∀ x, x ∈ seen ↔ x ∈ acc) →
      (l.map normWs).foldl (fun acc k => if k = [] ∨ k ∈ acc then acc else acc ++ [k]) acc
        = acc ++ dedupeAux seen l := by
  induction l with
  | nil =>
    intro seen acc _
    simp [dedupeAux]
  | cons item rest ih =>
    intro seen acc h
    simp only [List.map_cons, List.foldl_cons, dedupeAux]
    by_cases hc : normWs item = [] ∨ normWs item ∈ seen
    · have hc' : normWs item = [] ∨ normWs item ∈ acc := by
        rcases hc with h1 | h1
        · exact Or.inl h1
        · exact Or.inr ((h _).mp h1)
      rw [if_pos hc', if_pos hc]
      exact ih seen acc h
    · have hc' : ¬ (normWs item = [] ∨ normWs item ∈ acc) := by
        intro hx
        rcases hx with h1 | h1
        · exact hc (Or.inl h1)
        · exact hc (Or.inr ((h _).mpr h1))
      rw [if_neg hc', if_neg hc]
      have hinv : ∀ x, x ∈ normWs item :: seen ↔ x ∈ acc ++ [normWs item] := by
        intro x
        simp only [List.mem_cons, List.mem_append, List.mem_singleton, h x]
        tauto
      rw [ih (normWs item :: seen) (acc ++ [normWs item]) hinv, List.append_assoc]
      rfl

/-- C5: dedup keeps exactly the first occurrence of each nonempty
whitespace-collapsed key, in the original relative order: it equals the
spec's left-to-right first-occurrence scan of the normalised key stream,
and is a duplicate-free subsequence of that stream containing every
nonempty key, so its length is bounded by the number of distinct
normalised strings; the caller's capacity limit is applied after dedup as
a prefix, keeping the earliest-seen points. -/
theorem c5_dedup_order_and_cap (l : List Text) (summary : Summary) (limit : Nat) :
    dedupe_keep_order l = firstOccurrenceScan (l.map normWs)
    ∧ (dedupe_keep_order l).Sublist (l.map normWs)
    ∧ (dedupe_keep_order l).Nodup
    ∧ (dedupe_keep_order l).length ≤ ((l.map normWs).dedup).length
    ∧ (∀ x ∈ l, ¬ normWs x = [] → normWs x ∈ dedupe_keep_order l)
    ∧ collect_points summary limit = (dedupe_keep_order (rawStream summary)).take limit
    ∧ collect_points summary limit <+: dedupe_keep_order (rawStream summary) := by
  have hscan : dedupe_keep_order l = firstOccurrenceScan (l.map normWs) := by
    have h := dedupeAux_eq_scan l [] [] (by simp)
    simpa [dedupe_keep_order, firstOccurrenceScan] using h.symm
  have hsub : (dedupe_keep_order l).Sublist (l.map normWs) := dedupeAux_sublist l []
  have hnd : (dedupe_keep_order l).Nodup := (dedupeAux_nodup l []).2
  refine ⟨hscan, hsub, hnd, ?_, ?_, rfl, ?_⟩
  · have hcard := List.card_toFinset (dedupe_keep_order l)
    rw [hnd.dedup] at hcard
    calc (dedupe_keep_order l).length
        = (dedupe_keep_order l).toFinset.card := hcard.symm
      _ ≤ (l.map normWs).toFinset.card := by
          apply Finset.card_le_card
          intro x hx
          exact List.mem_toFinset.mpr (hsub.subset (List.mem_toFinset.mp hx))
      _ = ((l.map normWs).dedup).length := List.card_toFinset _
  · intro x hx hne
    rcases dedupeAux_complete l [] x hx hne with h | h
    · cases h
    · exact h
  · exact ⟨(dedupe_keep_order (rawStream summary)).drop limit, List.take_append_drop _ _⟩

/-- Witness for `c5_dedup_order_and_cap`: on an input with a duplicated
whitespace-variant string, the dedup output equals the first-occurrence
scan and contains the duplicated key. -/
theorem c5_dedup_order_and_cap_witness :
    dedupe_keep_order [("a  b".data), ("c d".data), ("a b".data)]
      = firstOccurrenceScan ([("a  b".data), ("c d".data), ("a b".data)].map normWs)
    ∧ normWs ("a  b".data) ∈ dedupe_keep_order [("a  b".data), ("c d".data), ("a b".data)] :=
  ⟨(c5_dedup_order_and_cap [("a  b".data), ("c d".data), ("a b".data)] ⟨none, [], []⟩ 180).1,
   (c5_dedup_order_and_cap [("a  b".data), ("c d".data), ("a b".data)]
       ⟨none, [], []⟩ 180).2.2.2.2.1 ("a  b".data) (by decide) (by decide)⟩

/-! ## Slide construction lemmas -/

theorem numberFrom_mem (l : List Slide) :
    ∀ n slide, slide ∈ numberFrom n l →
      ∃ s₀ ∈ l, ∃ m, slide = { s₀ with slide_number := m } := by
  induction l with
  | nil =>
    intro n slide h
    cases h
  | cons s rest ih =>
    intro n slide h
    rcases List.mem_cons.mp h with rfl | h'
    · exact ⟨s, List.mem_cons_self _ _, n, rfl⟩
    · rcases ih (n + 1) slide h' with ⟨s₀, hs₀, m, hm⟩
      exact ⟨s₀, List.mem_cons_of_mem _ hs₀, m, hm⟩

theorem numberFrom_map_page_type (l : List Slide) :
    ∀ n, (numberFrom n l).map Slide.page_type = l.map Slide.page_type := by
  induction l with
  | nil => intro n; rfl
  | cons s rest ih =>
    intro n
    simp [numberFrom, ih]

theorem numberFrom_map_title (l : List Slide) :
    ∀ n, (numberFrom n l).map Slide.title = l.map Slide.title := by
  induction l with
  | nil => intro n; rfl
  | cons s rest ih =>
    intro n
    simp [numberFrom, ih]

theorem make_slide_page_type (mode page_type title : Text) (content : List Text)
    (vk : Option Text) (ss : Text) (ip : Option Text) (sh : Text) :
    (make_slide mode page_type title content vk ss ip sh).page_type = page_type := by
  simp only [make_slide]
  split
  · rfl
  · split
    · rfl
    · split <;> rfl

theorem make_slide_title (mode page_type title : Text) (content : List Text)
    (vk : Option Text) (ss : Text) (ip : Option Text) (sh : Text) :
    (make_slide mode page_type title content vk ss ip sh).title = title := by
  simp only [make_slide]
  split
  · rfl
  · split
    · rfl
    · split <;> rfl

/-- Mode-specific fields of `_make_slide` on content pages. -/
theorem make_slide_mode_contract (mode page_type title : Text) (content : List Text)
    (vk : Option Text) (ss : Text) (ip : Option Text) (sh : Text)
    (htype : (make_slide mode page_type title content vk ss ip sh).type = "content".data) :
    (mode = "presentation".data →
      ∃ s, ¬ s = []
        ∧ (make_slide mode page_type title content vk ss ip sh).speaker_script = some s
        ∧ (make_slide mode page_type title content vk ss ip sh).speaker_notes = some s)
    ∧ (¬ mode = "presentation".data →
      (make_slide mode page_type title content vk ss ip sh).design_rationale
          = some designRationaleText
        ∧ (make_slide mode page_type title content vk ss ip sh).speaker_notes = some []
        ∧ (make_slide mode page_type title content vk ss ip sh).speaker_script = none) := by
  by_cases h1 : page_type = "cover".data
  · have hty : (make_slide mode page_type title content vk ss ip sh).type = "title".data := by
      simp [make_slide, h1]
    rw [hty] at htype
    exact absurd htype (by decide)
  · by_cases h2 : page_type = "section_divider".data
    · have hty : (make_slide mode page_type title content vk ss ip sh).type = "section".data := by
        simp [make_slide, h1, h2]
      rw [hty] at htype
      exact absurd htype (by decide)
    · constructor
      · intro hm
        refine ⟨if joinTexts ("；".data) (content.take 4) = [] then genericScript
                else joinTexts ("；".data) (content.take 4), ?_, ?_, ?_⟩
        · split
          · decide
          · assumption
        · simp [make_slide, h1, h2, hm]
        · simp [make_slide, h1, h2, hm]
      · intro hm
        refine ⟨?_, ?_, ?_⟩ <;> simp [make_slide, h1, h2, hm]

theorem core_slides_shape (summary : Summary) (mode : Text) (strat : Option RawStrategy) :
    ∀ slide ∈ (outline_core summary mode strat).slides,
      ∃ pt t c vk ss ip sh m,
        slide = { make_slide mode pt t c vk ss ip sh with slide_number := m } := by
  intro slide hmem
  obtain ⟨s₀, hs₀, m, rfl⟩ := numberFrom_mem _ 1 slide hmem
  by_cases hrcd : (normalize_strategy strat).require_chapter_dividers
  · simp only [hrcd, if_true, List.mem_append, List.mem_singleton, List.mem_cons,
      List.not_mem_nil, or_false, or_assoc] at hs₀
    rcases hs₀ with rfl|rfl|rfl|rfl|rfl|rfl|rfl|rfl|rfl|rfl|rfl|rfl <;>
      exact ⟨_, _, _, _, _, _, _, m, rfl⟩
  · simp only [hrcd, if_false, List.mem_append, List.mem_singleton, List.mem_cons,
      List.not_mem_nil, or_false, Bool.false_eq_true, or_assoc] at hs₀
    rcases hs₀ with rfl|rfl|rfl|rfl|rfl|rfl|rfl|rfl <;>
      exact ⟨_, _, _, _, _, _, _, m, rfl⟩

/-! ## C8 -/

/-- C8: the claim fails: in self-explanatory mode a content slide does carry
a `speaker_notes` field — it is present with the empty string as value (the
background content slide of an empty summary shown here). -/
theorem c8_counterexample :
    (((outline_core ⟨none, [], []⟩ ("self_explanatory".data) none).slides.getD 3
        (make_slide [] [] [] [] none [] none [])).type = "content".data)
    ∧ ¬ (((outline_core ⟨none, [], []⟩ ("self_explanatory".data) none).slides.getD 3
        (make_slide [] [] [] [] none [] none [])).speaker_notes = none) := by
  constructor <;> decide

/-- C8 (amended): presentation-mode content slides always carry a non-empty
`speaker_script` and the identical `speaker_notes`; self-explanatory-mode
content slides always carry the fixed `design_rationale`, never carry a
`speaker_script`, and carry a `speaker_notes` field that is present but
equal to the empty string. -/
theorem c8_mode_contract (summary : Summary) (strat : Option RawStrategy) (slide : Slide) :
    (slide ∈ (outline_core summary ("presentation".data) strat).slides →
      slide.type = "content".data →
      ∃ s, ¬ s = [] ∧ slide.speaker_script = some s ∧ slide.speaker_notes = some s)
    ∧ (slide ∈ (outline_core summary ("self_explanatory".data) strat).slides →
      slide.type = "content".data →
      slide.design_rationale = some designRationaleText
        ∧ slide.speaker_notes = some []
        ∧ slide.speaker_script = none) := by
  constructor
  · intro hmem htype
    obtain ⟨pt, t, c, vk, ss, ip, sh, m, rfl⟩ := core_slides_shape _ _ _ slide hmem
    have htype' : (make_slide ("presentation".data) pt t c vk ss ip sh).type
        = "content".data := htype
    obtain ⟨s, hs, h1, h2⟩ :=
      (make_slide_mode_contract _ pt t c vk ss ip sh htype').1 rfl
    exact ⟨s, hs, h1, h2⟩
  · intro hmem htype
    obtain ⟨pt, t, c, vk, ss, ip, sh, m, rfl⟩ := core_slides_shape _ _ _ slide hmem
    have htype' : (make_slide ("self_explanatory".data) pt t c vk ss ip sh).type
        = "content".data := htype
    exact (make_slide_mode_contract _ pt t c vk ss ip sh htype').2 (by decide)

/-- Witness for `c8_mode_contract` at a concrete presentation-mode outline. -/
theorem c8_mode_contract_witness :
    ∃ s, ¬ s = []
      ∧ ((outline_core ⟨none, [], []⟩ ("presentation".data) none).slides.getD 3
          (make_slide [] [] [] [] none [] none [])).speaker_script = some s
      ∧ ((outline_core ⟨none, [], []⟩ ("presentation".data) none).slides.getD 3
          (make_slide [] [] [] [] none [] none [])).speaker_notes = some s :=
  (c8_mode_contract ⟨none, [], []⟩ none
      ((outline_core ⟨none, [], []⟩ ("presentation".data) none).slides.getD 3
        (make_slide [] [] [] [] none [] none []))).1 (by decide) (by decide)

/-! ## C9 -/

theorem numberFrom_map_field {α : Type} (f : Slide → α)
    (hf : ∀ (s : Slide) (n : Nat), f { s with slide_number := n } = f s) (l : List Slide) :
    ∀ n, (numberFrom n l).map f = l.map f := by
  induction l with
  | nil =>
    intro n
    rfl
  | cons s rest ih =>
    intro n
    simp [numberFrom, ih, hf]

theorem numberFrom_map_number (l : List Slide) :
    ∀ n, (numberFrom n l).map Slide.slide_number = List.range' n l.length := by
  induction l with
  | nil =>
    intro n
    rfl
  | cons s rest ih =>
    intro n
    simp [numberFrom, ih, List.range']

theorem make_slide_section_style (mode pt t : Text) (c : List Text)
    (vk : Option Text) (ss : Text) (ip : Option Text) (sh : Text) :
    (make_slide mode pt t c vk ss ip sh).section_style = ss := by
  simp only [make_slide]
  split
  · rfl
  · split
    · rfl
    · split <;> rfl

theorem make_slide_type_formula (mode pt t : Text) (c : List Text)
    (vk : Option Text) (ss : Text) (ip : Option Text) (sh : Text) :
    (make_slide mode pt t c vk ss ip sh).type
      = (if pt = "cover".data then "title".data
         else if pt = "section_divider".data then "section".data
         else "content".data) := by
  by_cases h1 : pt = "cover".data
  · simp [make_slide, h1]
  · by_cases h2 : pt = "section_divider".data
    · simp [make_slide, h1, h2]
    · by_cases h3 : mode = "presentation".data <;> simp [make_slide, h1, h2, h3]

theorem make_slide_visual_spec_formula (mode pt t : Text) (c : List Text)
    (vk : Option Text) (ss : Text) (ip : Option Text) (sh : Text) :
    (make_slide mode pt t c vk ss ip sh).visual_spec
      = (if pt = "cover".data then none
         else if pt = "section_divider".data then none
         else some { kind := orDefaultT vk ("icon_list".data)
                     layout := "left_text_right_visual".data
                     image_policy := "material_only".data
                     image_path := ip.getD []
                     source := sh }) := by
  by_cases h1 : pt = "cover".data
  · simp [make_slide, h1]
  · by_cases h2 : pt = "section_divider".data
    · simp [make_slide, h1, h2]
    · by_cases h3 : mode = "presentation".data <;> simp [make_slide, h1, h2, h3]

theorem make_slide_subtitle_isSome_formula (mode pt t : Text) (c : List Text)
    (vk : Option Text) (ss : Text) (ip : Option Text) (sh : Text) :
    ((make_slide mode pt t c vk ss ip sh).subtitle).isSome
      = (if pt = "cover".data then !c.isEmpty else false) := by
  by_cases h1 : pt = "cover".data
  · cases c <;> simp [make_slide, h1]
  · by_cases h2 : pt = "section_divider".data
    · simp [make_slide, h1, h2]
    · by_cases h3 : mode = "presentation".data <;> simp [make_slide, h1, h2, h3]

theorem make_slide_content_isSome_formula (mode pt t : Text) (c : List Text)
    (vk : Option Text) (ss : Text) (ip : Option Text) (sh : Text) :
    ((make_slide mode pt t c vk ss ip sh).on_slide_content).isSome
      = (if pt = "cover".data then false
         else if pt = "section_divider".data then false
         else true) := by
  by_cases h1 : pt = "cover".data
  · simp [make_slide, h1]
  · by_cases h2 : pt = "section_divider".data
    · simp [make_slide, h1, h2]
    · by_cases h3 : mode = "presentation".data <;> simp [make_slide, h1, h2, h3]

theorem make_slide_bullets_isSome_formula (mode pt t : Text) (c : List Text)
    (vk : Option Text) (ss : Text) (ip : Option Text) (sh : Text) :
    ((make_slide mode pt t c vk ss ip sh).bullets).isSome
      = (if pt = "cover".data then false
         else if pt = "section_divider".data then false
         else true) := by
  by_cases h1 : pt = "cover".data
  · simp [make_slide, h1]
  · by_cases h2 : pt = "section_divider".data
    · simp [make_slide, h1, h2]
    · by_cases h3 : mode = "presentation".data <;> simp [make_slide, h1, h2, h3]

/-- C9: on identical summary and strategy, the two modes produce outlines
that agree on everything except the mode tag and the mode-specific content
fields: same outline title, subtitle, theme and normalised strategy; slide
lists with identical `page_type` sequence, identical per-slide titles,
identical slide numbering, section styles, rendering types and visual
specs; and content fields (cover subtitle, on-slide content, bullets)
present on exactly the same slides — only their mode-dependent values and
the speaker/design fields differ. -/
theorem c9_shared_skeleton (summary : Summary) (strat : Option RawStrategy) :
    (outline_core summary ("presentation".data) strat).title
      = (outline_core summary ("self_explanatory".data) strat).title
    ∧ (outline_core summary ("presentation".data) strat).subtitle
      = (outline_core summary ("self_explanatory".data) strat).subtitle
    ∧ (outline_core summary ("presentation".data) strat).theme
      = (outline_core summary ("self_explanatory".data) strat).theme
    ∧ (outline_core summary ("presentation".data) strat).strategy
      = (outline_core summary ("self_explanatory".data) strat).strategy
    ∧ ((outline_core summary ("presentation".data) strat).slides).map Slide.page_type
      = ((outline_core summary ("self_explanatory".data) strat).slides).map Slide.page_type
    ∧ ((outline_core summary ("presentation".data) strat).slides).map Slide.title
      = ((outline_core summary ("self_explanatory".data) strat).slides).map Slide.title
    ∧ ((outline_core summary ("presentation".data) strat).slides).map Slide.slide_number
      = ((outline_core summary ("self_explanatory".data) strat).slides).map Slide.slide_number
    ∧ ((outline_core summary ("presentation".data) strat).slides).map Slide.section_style
      = ((outline_core summary ("self_explanatory".data) strat).slides).map Slide.section_style
    ∧ ((outline_core summary ("presentation".data) strat).slides).map Slide.type
      = ((outline_core summary ("self_explanatory".data) strat).slides).map Slide.type
    ∧ ((outline_core summary ("presentation".data) strat).slides).map Slide.visual_spec
      = ((outline_core summary ("self_explanatory".data) strat).slides).map Slide.visual_spec
    ∧ ((outline_core summary ("presentation".data) strat).slides).map
          (fun sl => (Slide.subtitle sl).isSome)
      = ((outline_core summary ("self_explanatory".data) strat).slides).map
          (fun sl => (Slide.subtitle sl).isSome)
    ∧ ((outline_core summary ("presentation".data) strat).slides).map
          (fun sl => (Slide.on_slide_content sl).isSome)
      = ((outline_core summary ("self_explanatory".data) strat).slides).map
          (fun sl => (Slide.on_slide_content sl).isSome)
    ∧ ((outline_core summary ("presentation".data) strat).slides).map
          (fun sl => (Slide.bullets sl).isSome)
      = ((outline_core summary ("self_explanatory".data) strat).slides).map
          (fun sl => (Slide.bullets sl).isSome) := by
  refine ⟨rfl, rfl, rfl, rfl, ?_, ?_, ?_, ?_, ?_, ?_, ?_, ?_, ?_⟩ <;>
    by_cases hrcd : (normalize_strategy strat).require_chapter_dividers <;>
      simp [outline_core, hrcd, numberFrom_map_page_type, numberFrom_map_title,
        make_slide_page_type, make_slide_title, numberFrom_map_number,
        numberFrom_map_field Slide.section_style (fun s n => rfl),
        numberFrom_map_field Slide.type (fun s n => rfl),
        numberFrom_map_field Slide.visual_spec (fun s n => rfl),
        numberFrom_map_field (fun sl => (Slide.subtitle sl).isSome) (fun s n => rfl),
        numberFrom_map_field (fun sl => (Slide.on_slide_content sl).isSome) (fun s n => rfl),
        numberFrom_map_field (fun sl => (Slide.bullets sl).isSome) (fun s n => rfl),
        make_slide_section_style, make_slide_type_formula, make_slide_visual_spec_formula,
        make_slide_subtitle_isSome_formula, make_slide_content_isSome_formula,
        make_slide_bullets_isSome_formula]

/-! ## Stable sort lemmas and C10 -/

theorem insertLe_perm {α : Type} (le : α → α → Bool) (a : α) (l : List α) :
    (insertLe le a l).Perm (a :: l) := by
  induction l with
  | nil => exact List.Perm.refl _
  | cons b rest ih =>
    simp only [insertLe]
    split
    · exact (ih.cons b).trans (List.Perm.swap a b rest)
    · exact List.Perm.refl _

theorem stableSort_perm_aux {α : Type} (le : α → α → Bool) :
    ∀ (l acc : List α), (l.foldl (fun acc x => insertLe le x acc) acc).Perm (acc ++ l) := by
  intro l
  induction l with
  | nil =>
    intro acc
    simp
  | cons x rest ih =>
    intro acc
    simp only [List.foldl_cons]
    refine (ih (insertLe le x acc)).trans ?_
    have h1 : (insertLe le x acc ++ rest).Perm ((x :: acc) ++ rest) :=
      (insertLe_perm le x acc).append_right rest
    exact h1.trans List.perm_middle.symm

theorem stableSort_perm {α : Type} (le : α → α → Bool) (l : List α) :
    (stableSort le l).Perm l := by
  simpa using stableSort_perm_aux le l []

theorem insertLe_pairwise {α : Type} (le : α → α → Bool)
    (htrans : ∀ a b c, le a b = true → le b c = true → le a c = true)
    (htotal : ∀ a b, le a b = true ∨ le b a = true)
    (a : α) (l : List α) (h : List.Pairwise (fun x y => le x y = true) l) :
    List.Pairwise (fun x y => le x y = true) (insertLe le a l) := by
  induction l with
  | nil => simp [insertLe]
  | cons b rest ih =>
    rcases List.pairwise_cons.mp h with ⟨hb, hrest⟩
    simp only [insertLe]
    split
    · rename_i hba
      refine List.pairwise_cons.mpr ⟨?_, ih hrest⟩
      intro x hx
      rcases List.mem_cons.mp ((insertLe_perm le a rest).mem_iff.mp hx) with rfl | hxr
      · exact hba
      · exact hb x hxr
    · rename_i hba
      have hab : le a b = true := by
        rcases htotal a b with h' | h'
        · exact h'
        · exact absurd h' hba
      refine List.pairwise_cons.mpr ⟨?_, h⟩
      intro x hx
      rcases List.mem_cons.mp hx with rfl | hxr
      · exact hab
      · exact htrans a b x hab (hb x hxr)

theorem stableSort_pairwise {α : Type} (le : α → α → Bool)
    (htrans : ∀ a b c, le a b = true → le b c = true → le a c = true)
    (htotal : ∀ a b, le a b = true ∨ le b a = true)
    (l : List α) :
    List.Pairwise (fun x y => le x y = true) (stableSort le l) := by
  have haux : ∀ (l' acc : List α),
      List.Pairwise (fun x y => le x y = true) acc →
      List.Pairwise (fun x y => le x y = true)
        (l'.foldl (fun acc x => insertLe le x acc) acc) := by
    intro l'
    induction l' with
    | nil =>
      intro acc h
      simpa using h
    | cons x rest ih =>
      intro acc h
      exact ih _ (insertLe_pairwise le htrans htotal x acc h)
  exact haux l [] List.Pairwise.nil

theorem sorted_distinct_perm_eq {α : Type} (f : α → Nat) :
    ∀ (l₁ l₂ : List α), l₁.Perm l₂ →
      List.Pairwise (fun a b => f a ≤ f b) l₁ →
      List.Pairwise (fun a b => f a ≤ f b) l₂ →
      List.Pairwise (fun a b => ¬ f a = f b) l₁ →
      l₁ = l₂ := by
  intro l₁
  induction l₁ with
  | nil =>
    intro l₂ hp _ _ _
    exact (hp.symm.eq_nil).symm
  | cons a t ih =>
    intro l₂ hp h1 h2 hd
    cases l₂ with
    | nil => exact absurd hp.eq_nil (by simp)
    | cons b t₂ =>
      have hab : a = b := by
        by_contra hne
        have hat₂ : a ∈ t₂ := by
          have hmem : a ∈ b :: t₂ := hp.mem_iff.mp (List.mem_cons_self a t)
          rcases List.mem_cons.mp hmem with h | h
          · exact absurd h hne
          · exact h
        have hbt : b ∈ t := by
          have hmem : b ∈ a :: t := hp.mem_iff.mpr (List.mem_cons_self b t₂)
          rcases List.mem_cons.mp hmem with h | h
          · exact absurd h.symm hne
          · exact h
        have hfab : f a ≤ f b := (List.pairwise_cons.mp h1).1 b hbt
        have hfba : f b ≤ f a := (List.pairwise_cons.mp h2).1 a hat₂
        have hfne : ¬ f a = f b := (List.pairwise_cons.mp hd).1 b hbt
        omega
      subst hab
      rw [ih t₂ hp.cons_inv (List.pairwise_cons.mp h1).2 (List.pairwise_cons.mp h2).2
        (List.pairwise_cons.mp hd).2]

/-- C10: documents are processed in the fixed priority order (thesis-named
files first, then docx, then pdf, then the rest); pptx documents contribute
no text; for documents of pairwise distinct priorities the collected points
do not depend on the order of the documents in the summary; and a document
of strictly smaller priority is processed before one of larger priority, so
its occurrence of a shared normalised text is the one dedup keeps. -/
theorem c10_doc_priority_processing (docs docs₁ docs₂ : List Document)
    (pt : Option Text) (imgs : List Image) (limit : Nat) (A B : Document)
    (hperm : docs₁.Perm docs₂)
    (hdist : List.Pairwise (fun a b => ¬ doc_priority a = doc_priority b) docs₁)
    (hAB : doc_priority A < doc_priority B) :
    (sortedDocs docs).Perm docs
    ∧ List.Pairwise (fun a b => doc_priority a ≤ doc_priority b) (sortedDocs docs)
    ∧ (∀ d : Document, lowerT d.kind = "pptx".data → contribOf d = [])
    ∧ collect_points ⟨pt, docs₁, imgs⟩ limit = collect_points ⟨pt, docs₂, imgs⟩ limit
    ∧ sortedDocs [B, A] = [A, B]
    ∧ rawStream ⟨pt, [B, A], imgs⟩ = contribOf A ++ contribOf B := by
  have htrans : ∀ a b c : Document,
      decide (doc_priority a ≤ doc_priority b) = true →
      decide (doc_priority b ≤ doc_priority c) = true →
      decide (doc_priority a ≤ doc_priority c) = true := by
    intro a b c h1 h2
    simp only [decide_eq_true_eq] at h1 h2 ⊢
    omega
  have htotal : ∀ a b : Document,
      decide (doc_priority a ≤ doc_priority b) = true
        ∨ decide (doc_priority b ≤ doc_priority a) = true := by
    intro a b
    simp only [decide_eq_true_eq]
    omega
  have hsorted : ∀ ds : List Document,
      List.Pairwise (fun a b => doc_priority a ≤ doc_priority b) (sortedDocs ds) := by
    intro ds
    have := stableSort_pairwise (fun a b => decide (doc_priority a ≤ doc_priority b))
      htrans htotal ds
    exact this.imp (fun h => by simpa using h)
  have hBA : sortedDocs [B, A] = [A, B] := by
    have hle : decide (doc_priority B ≤ doc_priority A) = false := by
      simp only [decide_eq_false_iff_not]
      omega
    simp [sortedDocs, stableSort, insertLe, hle]
  refine ⟨stableSort_perm _ docs, hsorted docs, ?_, ?_, hBA, ?_⟩
  · intro d h
    simp [contribOf, h]
  · have hsorted_eq : sortedDocs docs₁ = sortedDocs docs₂ := by
      apply sorted_distinct_perm_eq doc_priority
      · exact (stableSort_perm _ docs₁).trans (hperm.trans (stableSort_perm _ docs₂).symm)
      · exact hsorted docs₁
      · exact hsorted docs₂
      · exact ((stableSort_perm _ docs₁).pairwise_iff
          (fun hxy heq => hxy heq.symm)).mpr hdist
    simp only [collect_points, rawStream]
    rw [hsorted_eq]
  · simp [rawStream, hBA]

/-- Witness for `c10_doc_priority_processing`: a thesis-named docx outranks a
pdf, so the collected points ignore the order of the two documents. -/
theorem c10_doc_priority_processing_witness :
    collect_points ⟨none, [⟨"我的学位论文.docx".data, "docx".data, []⟩,
        ⟨"paper.pdf".data, "pdf".data, []⟩], []⟩ 180
      = collect_points ⟨none, [⟨"paper.pdf".data, "pdf".data, []⟩,
          ⟨"我的学位论文.docx".data, "docx".data, []⟩], []⟩ 180
    ∧ sortedDocs [⟨"paper.pdf".data, "pdf".data, []⟩,
        ⟨"我的学位论文.docx".data, "docx".data, []⟩]
      = [⟨"我的学位论文.docx".data, "docx".data, []⟩,
         ⟨"paper.pdf".data, "pdf".data, []⟩] := by
  have h := c10_doc_priority_processing []
    [⟨"我的学位论文.docx".data, "docx".data, []⟩, ⟨"paper.pdf".data, "pdf".data, []⟩]
    [⟨"paper.pdf".data, "pdf".data, []⟩, ⟨"我的学位论文.docx".data, "docx".data, []⟩]
    none [] 180
    ⟨"我的学位论文.docx".data, "docx".data, []⟩ ⟨"paper.pdf".data, "pdf".data, []⟩
    (List.Perm.swap _ _ _)
    (by
      refine List.pairwise_cons.mpr ⟨?_, List.pairwise_singleton _ _⟩
      intro b hb
      rcases List.mem_singleton.mp hb with rfl
      decide)
    (by decide)
  exact ⟨h.2.2.2.1, h.2.2.2.2.1⟩

/-! ## Whitespace normalisation is idempotent -/

theorem wordsAux_words_ok (l : List Char) :
    ∀ (cur : List Char), (∀ c ∈ cur, isWsChar c = false) →
      ∀ w ∈ wordsAux cur l, ¬ w = [] ∧ ∀ c ∈ w, isWsChar c = false := by
  induction l with
  | nil =>
    intro cur hcur w hw
    simp only [wordsAux] at hw
    split at hw
    · cases hw
    · rename_i hne
      rw [List.mem_singleton] at hw
      subst hw
      refine ⟨by simpa using hne, ?_⟩
      intro c hc
      exact hcur c (List.mem_reverse.mp hc)
  | cons a rest ih =>
    intro cur hcur w hw
    simp only [wordsAux] at hw
    by_cases hws : isWsChar a = true
    · rw [if_pos hws] at hw
      by_cases hcurnil : cur = []
      · rw [if_pos hcurnil] at hw
        exact ih [] (by simp) w hw
      · rw [if_neg hcurnil] at hw
        rcases List.mem_cons.mp hw with rfl | hw'
        · refine ⟨by simpa using hcurnil, ?_⟩
          intro c hc
          exact hcur c (List.mem_reverse.mp hc)
        · exact ih [] (by simp) w hw'
    · rw [if_neg hws] at hw
      refine ih (a :: cur) ?_ w hw
      intro c hc
      rcases List.mem_cons.mp hc with rfl | hc'
      · simpa using hws
      · exact hcur c hc'

theorem wordsAux_append_word (w : List Char) :
    (∀ c ∈ w, isWsChar c = false) →
      ∀ (cur l : List Char), wordsAux cur (w ++ l) = wordsAux (w.reverse ++ cur) l := by
  induction w with
  | nil =>
    intro _ cur l
    simp
  | cons a w' ih =>
    intro hw cur l
    have ha : isWsChar a = false := hw a (List.mem_cons_self _ _)
    rw [List.cons_append, wordsAux, if_neg (by simp [ha])]
    rw [ih (fun c hc => hw c (List.mem_cons_of_mem _ hc)) (a :: cur) l]
    congr 1
    simp

theorem wordsAux_joinSpace :
    ∀ (ws : List (List Char)),
      (∀ w ∈ ws, ¬ w = [] ∧ ∀ c ∈ w, isWsChar c = false) →
      wordsAux [] (joinSpace ws) = ws := by
  intro ws
  induction ws with
  | nil =>
    intro _
    rfl
  | cons w ws' ih =>
    intro h
    have hw := h w (List.mem_cons_self _ _)
    cases ws' with
    | nil =>
      have h2 := wordsAux_append_word w hw.2 [] []
      simp only [List.append_nil] at h2
      show wordsAux [] (joinSpace [w]) = [w]
      simp only [joinSpace]
      rw [h2, wordsAux, if_neg (by simpa using hw.1)]
      simp
    | cons w₂ ws'' =>
      show wordsAux [] (w ++ ' ' :: joinSpace (w₂ :: ws'')) = w :: w₂ :: ws''
      rw [wordsAux_append_word w hw.2 [] (' ' :: joinSpace (w₂ :: ws''))]
      rw [wordsAux, if_pos (by decide), if_neg (by simpa using hw.1)]
      rw [List.append_nil, List.reverse_reverse]
      rw [ih (fun x hx => h x (List.mem_cons_of_mem _ hx))]

theorem normWs_idem (s : Text) : normWs (normWs s) = normWs s := by
  unfold normWs
  congr 1
  exact wordsAux_joinSpace (splitWords s) (wordsAux_words_ok s [] (by simp))

/-! ## C6: noise exclusion -/

/-- The noise predicate of claim C6: the text contains an at-sign, an
HTTP(S) or DOI URL substring, or reviewer/rebuttal vocabulary. -/
def claimNoisy (t : Text) : Bool :=
  decide ('@' ∈ t) || containsSub ("http://".data) (lowerT t)
    || containsSub ("https://".data) (lowerT t)
    || containsSub ("doi.org".data) (lowerT t)
    || looks_rebuttal_text t

/-- The strings displayed as slide content: the on-slide content list and
the bullets list. -/
def slideContentItems (slide : Slide) : List Text :=
  slide.on_slide_content.getD [] ++ slide.bullets.getD []

theorem rstripT_isPre (s : Text) : rstripT s <+: s := by
  unfold rstripT
  have h : s.reverse.dropWhile isWsChar <:+ s.reverse := List.dropWhile_suffix isWsChar
  have h2 := List.reverse_prefix.mpr h
  rwa [List.reverse_reverse] at h2

theorem truncate_shape (s : Text) (k : Nat) :
    truncate s k = s ∨ ∃ P, P <+: s ∧ truncate s k = P ++ ['…'] := by
  unfold truncate
  split
  · exact Or.inl rfl
  · refine Or.inr ⟨rstripT (s.take (k - 1)), ?_, rfl⟩
    exact (rstripT_isPre _).trans ⟨s.drop (k - 1), List.take_append_drop _ _⟩

theorem infixSplitLast {pat A : Text} {c : Char}
    (h : pat <:+: A ++ [c]) : pat <:+: A ∨ c ∈ pat := by
  rcases h with ⟨s, t, hst⟩
  rcases List.eq_nil_or_concat t with rfl | ⟨ts, tl, rfl⟩
  · rcases List.eq_nil_or_concat pat with rfl | ⟨ps, p, rfl⟩
    · exact Or.inl ⟨[], A, by simp⟩
    · right
      rw [List.concat_eq_append] at hst ⊢
      simp only [List.append_nil] at hst
      have hst2 : (s ++ ps) ++ [p] = A ++ [c] := by
        rw [List.append_assoc]
        exact hst
      obtain ⟨-, hpc⟩ := List.append_inj' hst2 rfl
      have hpc' : p = c := by simpa using hpc
      subst hpc'
      exact List.mem_append_right _ (List.mem_singleton_self _)
  · left
    rw [List.concat_eq_append] at hst
    have hst2 : ((s ++ pat) ++ ts) ++ [tl] = A ++ [c] := by
      rw [List.append_assoc]
      exact hst
    obtain ⟨hA, -⟩ := List.append_inj' hst2 rfl
    exact ⟨s, ts, hA⟩


theorem lowerT_append_dots (P : Text) : lowerT (P ++ ['…']) = lowerT P ++ ['…'] := by
  simp [lowerT, show Char.toLower '…' = '…' from by decide]

theorem patternNotInTrunc (pat P t : Text) (hP : P <+: t)
    (hno : containsSub pat (lowerT t) = false) (hdots : '…' ∉ pat) :
    containsSub pat (lowerT (P ++ ['…'])) = false := by
  by_contra hh
  rw [Bool.not_eq_false] at hh
  have hinf : pat <:+: lowerT P ++ ['…'] := by
    have h' := of_decide_eq_true hh
    rwa [lowerT_append_dots] at h'
  rcases infixSplitLast hinf with hin | hmem
  · have hPt : lowerT P <+: lowerT t := List.IsPrefix.map _ hP
    have hfin : pat <:+: lowerT t := hin.trans ( List.IsPrefix.isInfix hPt)
    rw [show containsSub pat (lowerT t) = true from decide_eq_true hfin] at hno
    cases hno
  · exact hdots hmem

theorem claimNoisy_truncate (t : Text) (k : Nat) (h : claimNoisy t = false) :
    claimNoisy (truncate t k) = false := by
  rcases truncate_shape t k with heq | ⟨P, hP, heq⟩
  · rwa [heq]
  · rw [heq]
    simp only [claimNoisy, Bool.or_eq_false_iff] at h ⊢
    obtain ⟨⟨⟨⟨h0, h1⟩, h2⟩, h3⟩, h4⟩ := h
    refine ⟨⟨⟨⟨?_, ?_⟩, ?_⟩, ?_⟩, ?_⟩
    · rw [decide_eq_false_iff_not]
      intro hmem
      rcases List.mem_append.mp hmem with hx | hx
      · exact (decide_eq_false_iff_not.mp h0) (hP.subset hx)
      · exact absurd (List.mem_singleton.mp hx) (by decide)
    · exact patternNotInTrunc _ P t hP h1 (by decide)
    · exact patternNotInTrunc _ P t hP h2 (by decide)
    · exact patternNotInTrunc _ P t hP h3 (by decide)
    · rw [looks_rebuttal_text, List.any_eq_false]
      intro pat hpat
      rw [Bool.not_eq_true]
      have hpatf : containsSub pat (lowerT t) = false := by
        rw [looks_rebuttal_text, List.any_eq_false] at h4
        have h' := h4 pat hpat
        rwa [Bool.not_eq_true] at h'
      refine patternNotInTrunc pat P t hP hpatf ?_
      have hd : ∀ q ∈ REBUTTAL_PATTERNS, '…' ∉ q := by decide
      exact hd pat hpat

theorem contentful_not_claimNoisy (t : Text)
    (hc : looks_contentful_text t = true) (hr : looks_rebuttal_text t = false) :
    claimNoisy t = false := by
  have hn : looks_noise_text t = false := by
    by_contra hh
    rw [Bool.not_eq_false] at hh
    rw [looks_contentful_text, if_pos hh] at hc
    cases hc
  have hany : NOISE_PATTERNS.any (fun pattern => containsSub pattern (lowerT t)) = false := by
    by_contra hh
    rw [Bool.not_eq_false] at hh
    simp only [looks_noise_text] at hn
    rw [if_pos hh] at hn
    cases hn
  have hcount : (lowerT t).count '@' = 0 := by
    by_contra hh
    have hpos : 0 < (lowerT t).count '@' := Nat.pos_of_ne_zero hh
    simp only [looks_noise_text] at hn
    rw [if_neg (by simp [hany]), if_pos hpos] at hn
    cases hn
  have hnoise := List.any_eq_false.mp hany
  simp only [claimNoisy, Bool.or_eq_false_iff]
  refine ⟨⟨⟨⟨?_, ?_⟩, ?_⟩, ?_⟩, hr⟩
  · rw [decide_eq_false_iff_not]
    intro hmem
    have hmem' : '@' ∈ lowerT t := List.mem_map.mpr ⟨'@', hmem, by decide⟩
    rw [List.count_eq_zero] at hcount
    exact hcount hmem'
  · have h' := hnoise ("http://".data) (by decide)
    rwa [Bool.not_eq_true] at h'
  · have h' := hnoise ("https://".data) (by decide)
    rwa [Bool.not_eq_true] at h'
  · have h' := hnoise ("doi.org".data) (by decide)
    rwa [Bool.not_eq_true] at h'

theorem dedupeAux_mem_src (l : List Text) :
    ∀ seen x, x ∈ dedupeAux seen l → ∃ y ∈ l, x = normWs y := by
  induction l with
  | nil =>
    intro seen x h
    cases h
  | cons item rest ih =>
    intro seen x h
    simp only [dedupeAux] at h
    split at h
    · obtain ⟨y, hy, hxy⟩ := ih _ x h
      exact ⟨y, List.mem_cons_of_mem _ hy, hxy⟩
    · rcases List.mem_cons.mp h with rfl | h'
      · exact ⟨item, List.mem_cons_self _ _, rfl⟩
      · obtain ⟨y, hy, hxy⟩ := ih _ x h'
        exact ⟨y, List.mem_cons_of_mem _ hy, hxy⟩

theorem contrib_props (d : Document) (y : Text) (h : y ∈ contribOf d) :
    normWs y = y ∧ looks_rebuttal_text y = false ∧ looks_contentful_text y = true := by
  rw [contribOf] at h
  split at h
  · cases h
  · split at h
    · cases h
    · obtain ⟨p, hp, hf⟩ := List.mem_filterMap.mp h
      simp only at hf
      split at hf
      · cases hf
      · split at hf
        · cases hf
        · split at hf
          · cases hf
          · split at hf
            · cases hf
            · rename_i hreb hcont
              injection hf with hf'
              subst hf'
              refine ⟨normWs_idem p, ?_, not_not.mp hcont⟩
              cases hb : looks_rebuttal_text (normWs p)
              · rfl
              · exact absurd hb hreb

theorem collect_points_noisefree (summary : Summary) (limit : Nat) :
    ∀ x ∈ collect_points summary limit, claimNoisy x = false := by
  intro x hx
  have hx1 : x ∈ dedupe_keep_order (rawStream summary) := List.mem_of_mem_take hx
  obtain ⟨y, hy, rfl⟩ := dedupeAux_mem_src _ [] x hx1
  obtain ⟨d, _, hyd⟩ := List.mem_flatMap.mp hy
  obtain ⟨hidem, hreb, hcont⟩ := contrib_props d y hyd
  rw [hidem]
  exact contentful_not_claimNoisy y hcont hreb

theorem init_bucket_empty (sec : SectionT) : bucketGet ⟨[], [], [], []⟩ sec = [] := by
  cases sec <;> rfl

theorem mem_foldl_buckets (points : List Text) :
    ∀ (b : Buckets) (sec : SectionT) (x : Text),
      x ∈ bucketGet (points.foldl bucketsStep b) sec → x ∈ bucketGet b sec ∨ x ∈ points := by
  induction points with
  | nil =>
    intro b sec x h
    exact Or.inl h
  | cons p rest ih =>
    intro b sec x h
    simp only [List.foldl_cons] at h
    rcases ih (bucketsStep b p) sec x h with h' | h'
    · have hsplit : x ∈ bucketGet b sec ∨ x = p := by
        cases hc : classify_point p with
        | none =>
          simp only [bucketsStep, hc] at h'
          by_cases hcond : b.results.length ≤ b.methodology.length
          · rw [if_pos hcond] at h'
            cases sec <;> simp only [bucketGet] at h' ⊢ <;>
              (try simp only [List.mem_append, List.mem_singleton] at h') <;> tauto
          · rw [if_neg hcond] at h'
            cases sec <;> simp only [bucketGet] at h' ⊢ <;>
              (try simp only [List.mem_append, List.mem_singleton] at h') <;> tauto
        | some s =>
          simp only [bucketsStep, hc] at h'
          cases s <;> cases sec <;> simp only [bucketGet] at h' ⊢ <;>
            (try simp only [List.mem_append, List.mem_singleton] at h') <;> tauto
      rcases hsplit with h'' | rfl
      · exact Or.inl h''
      · exact Or.inr (List.mem_cons_self _ _)
    · exact Or.inr (List.mem_cons_of_mem _ h')

theorem mem_fillFrom (chosen fallback : List Text) (size : Nat) :
    ∀ x ∈ fillFrom chosen fallback size, x ∈ chosen ∨ x ∈ fallback := by
  induction fallback generalizing chosen with
  | nil =>
    intro x h
    exact Or.inl h
  | cons f rest ih =>
    intro x h
    unfold fillFrom at h
    split at h
    · rcases ih (chosen ++ [f]) x h with h' | h'
      · rcases List.mem_append.mp h' with h'' | h''
        · exact Or.inl h''
        · exact Or.inr (List.mem_cons.mpr (Or.inl (List.mem_singleton.mp h'')))
      · exact Or.inr (List.mem_cons_of_mem _ h')
    · exact Or.inl h

theorem mem_section_payloads (points : List Text) (mode : Text) (sec : SectionT) :
    ∀ x ∈ section_payloads points mode sec, x ∈ points ∨ x ∈ section_fallbacks sec := by
  intro x h
  unfold section_payloads at h
  rcases mem_fillFrom _ _ _ x h with h' | h'
  · left
    have h1 := List.mem_of_mem_take h'
    have h2 := (stableSort_perm _ _).mem_iff.mp h1
    rcases mem_foldl_buckets points _ sec x h2 with h3 | h3
    · rw [init_bucket_empty] at h3
      cases h3
    · exact h3
  · exact Or.inr h'

theorem agenda_noisefree (mode : Text) :
    ∀ src ∈ agenda_items mode, claimNoisy src = false := by
  rw [agenda_items]
  split
  · decide
  · decide

theorem fallback_noisefree (sec : SectionT) :
    ∀ src ∈ section_fallbacks sec, claimNoisy src = false := by
  cases sec <;> decide

theorem conclusion_noisefree : ∀ src ∈ conclusion_content, claimNoisy src = false := by
  decide

theorem qa_noisefree : ∀ src ∈ qa_content, claimNoisy src = false := by
  decide

theorem make_slide_cover_content (mode t : Text) (cont : List Text)
    (vk : Option Text) (ss : Text) (ip : Option Text) (sh : Text) :
    slideContentItems (make_slide mode ("cover".data) t cont vk ss ip sh) = [] := by
  simp [make_slide, slideContentItems]

theorem make_slide_content_items (mode pt t : Text) (cont : List Text)
    (vk : Option Text) (ss : Text) (ip : Option Text) (sh : Text) :
    ∀ c ∈ slideContentItems (make_slide mode pt t cont vk ss ip sh),
      ∃ src ∈ cont,
        c = truncate src (if mode = "self_explanatory".data then 190 else 78) := by
  intro c hc
  simp only [make_slide, slideContentItems] at hc
  split at hc
  · simp at hc
  · split at hc
    · simp at hc
    · split at hc <;>
      · simp only [Option.getD_some] at hc
        rcases List.mem_append.mp hc with hx | hx <;>
          · obtain ⟨src, hsrc, rfl⟩ := List.mem_map.mp hx
            exact ⟨src, hsrc, rfl⟩

/-- No slide content string of an outline is claim-noisy. -/
def noNoisyContent (o : Outline) : Prop :=
  ∀ slide ∈ o.slides, ∀ c ∈ slideContentItems slide, claimNoisy c = false

/-- C6: under either mode, no string containing an at-sign, an HTTP(S)/DOI
URL substring, or reviewer/rebuttal vocabulary ever appears in the slide
content of a built outline — in particular no such extracted point does. -/
theorem c6_noise_exclusion (summary : Summary) (mode : Text) (strat : Option RawStrategy)
    (o : Outline) (h : build_outline summary mode strat = Except.ok o) :
    noNoisyContent o := by
  have ho : o = outline_core summary mode strat := by
    rw [build_outline] at h
    split at h
    · cases h
    · injection h with h'
      exact h'.symm
  subst ho
  intro slide hmem c hc
  obtain ⟨s₀, hs₀, m, rfl⟩ := numberFrom_mem _ 1 slide hmem
  have hc₀ : c ∈ slideContentItems s₀ := hc
  by_cases hrcd : (normalize_strategy strat).require_chapter_dividers
  · simp only [hrcd, if_true, List.mem_append, List.mem_singleton, List.mem_cons,
      List.not_mem_nil, or_false, or_assoc] at hs₀
    rcases hs₀ with rfl|rfl|rfl|rfl|rfl|rfl|rfl|rfl|rfl|rfl|rfl|rfl
    · rw [make_slide_cover_content] at hc₀
      cases hc₀
    · obtain ⟨src, hsrc, rfl⟩ := make_slide_content_items _ _ _ _ _ _ _ _ c hc₀
      exact claimNoisy_truncate _ _ (agenda_noisefree mode src hsrc)
    · obtain ⟨src, hsrc, rfl⟩ := make_slide_content_items _ _ _ _ _ _ _ _ c hc₀
      exact absurd hsrc (List.not_mem_nil src)
    · obtain ⟨src, hsrc, rfl⟩ := make_slide_content_items _ _ _ _ _ _ _ _ c hc₀
      rcases mem_section_payloads _ _ _ src hsrc with hsp | hsp
      · exact claimNoisy_truncate _ _ (collect_points_noisefree summary 180 src hsp)
      · exact claimNoisy_truncate _ _ (fallback_noisefree _ src hsp)
    · obtain ⟨src, hsrc, rfl⟩ := make_slide_content_items _ _ _ _ _ _ _ _ c hc₀
      exact absurd hsrc (List.not_mem_nil src)
    · obtain ⟨src, hsrc, rfl⟩ := make_slide_content_items _ _ _ _ _ _ _ _ c hc₀
      rcases mem_section_payloads _ _ _ src hsrc with hsp | hsp
      · exact claimNoisy_truncate _ _ (collect_points_noisefree summary 180 src hsp)
      · exact claimNoisy_truncate _ _ (fallback_noisefree _ src hsp)
    · obtain ⟨src, hsrc, rfl⟩ := make_slide_content_items _ _ _ _ _ _ _ _ c hc₀
      exact absurd hsrc (List.not_mem_nil src)
    · obtain ⟨src, hsrc, rfl⟩ := make_slide_content_items _ _ _ _ _ _ _ _ c hc₀
      rcases mem_section_payloads _ _ _ src hsrc with hsp | hsp
      · exact claimNoisy_truncate _ _ (collect_points_noisefree summary 180 src hsp)
      · exact claimNoisy_truncate _ _ (fallback_noisefree _ src hsp)
    · obtain ⟨src, hsrc, rfl⟩ := make_slide_content_items _ _ _ _ _ _ _ _ c hc₀
      exact absurd hsrc (List.not_mem_nil src)
    · obtain ⟨src, hsrc, rfl⟩ := make_slide_content_items _ _ _ _ _ _ _ _ c hc₀
      rcases mem_section_payloads _ _ _ src hsrc with hsp | hsp
      · exact claimNoisy_truncate _ _ (collect_points_noisefree summary 180 src hsp)
      · exact claimNoisy_truncate _ _ (fallback_noisefree _ src hsp)
    · obtain ⟨src, hsrc, rfl⟩ := make_slide_content_items _ _ _ _ _ _ _ _ c hc₀
      exact claimNoisy_truncate _ _ (conclusion_noisefree src hsrc)
    · obtain ⟨src, hsrc, rfl⟩ := make_slide_content_items _ _ _ _ _ _ _ _ c hc₀
      exact claimNoisy_truncate _ _ (qa_noisefree src hsrc)
  · simp only [hrcd, if_false, List.mem_append, List.mem_singleton, List.mem_cons,
      List.not_mem_nil, or_false, Bool.false_eq_true, or_assoc] at hs₀
    rcases hs₀ with rfl|rfl|rfl|rfl|rfl|rfl|rfl|rfl
    · rw [make_slide_cover_content] at hc₀
      cases hc₀
    · obtain ⟨src, hsrc, rfl⟩ := make_slide_content_items _ _ _ _ _ _ _ _ c hc₀
      exact claimNoisy_truncate _ _ (agenda_noisefree mode src hsrc)
    · obtain ⟨src, hsrc, rfl⟩ := make_slide_content_items _ _ _ _ _ _ _ _ c hc₀
      rcases mem_section_payloads _ _ _ src hsrc with hsp | hsp
      · exact claimNoisy_truncate _ _ (collect_points_noisefree summary 180 src hsp)
      · exact claimNoisy_truncate _ _ (fallback_noisefree _ src hsp)
    · obtain ⟨src, hsrc, rfl⟩ := make_slide_content_items _ _ _ _ _ _ _ _ c hc₀
      rcases mem_section_payloads _ _ _ src hsrc with hsp | hsp
      · exact claimNoisy_truncate _ _ (collect_points_noisefree summary 180 src hsp)
      · exact claimNoisy_truncate _ _ (fallback_noisefree _ src hsp)
    · obtain ⟨src, hsrc, rfl⟩ := make_slide_content_items _ _ _ _ _ _ _ _ c hc₀
      rcases mem_section_payloads _ _ _ src hsrc with hsp | hsp
      · exact claimNoisy_truncate _ _ (collect_points_noisefree summary 180 src hsp)
      · exact claimNoisy_truncate _ _ (fallback_noisefree _ src hsp)
    · obtain ⟨src, hsrc, rfl⟩ := make_slide_content_items _ _ _ _ _ _ _ _ c hc₀
      rcases mem_section_payloads _ _ _ src hsrc with hsp | hsp
      · exact claimNoisy_truncate _ _ (collect_points_noisefree summary 180 src hsp)
      · exact claimNoisy_truncate _ _ (fallback_noisefree _ src hsp)
    · obtain ⟨src, hsrc, rfl⟩ := make_slide_content_items _ _ _ _ _ _ _ _ c hc₀
      exact claimNoisy_truncate _ _ (conclusion_noisefree src hsrc)
    · obtain ⟨src, hsrc, rfl⟩ := make_slide_content_items _ _ _ _ _ _ _ _ c hc₀
      exact claimNoisy_truncate _ _ (qa_noisefree src hsrc)

/-- Witness for `c6_noise_exclusion` at a concrete summary and mode. -/
theorem c6_noise_exclusion_witness :
    build_outline ⟨none, [], []⟩ ("presentation".data) none
      = Except.ok (outline_core ⟨none, [], []⟩ ("presentation".data) none)
    ∧ noNoisyContent (outline_core ⟨none, [], []⟩ ("presentation".data) none) :=
  ⟨rfl, c6_noise_exclusion ⟨none, [], []⟩ ("presentation".data) none _ rfl⟩
